import Mathlib

/-!
Shallow embedding of the tabular record store demonstrated by
src/lib/sqlalchemy_sandbox.py: a `Student` entity backed by a table with
a primary key on `id`, a unique constraint on `email` and a check
constraint `grade BETWEEN 1 AND 12`, together with the operations the
script performs through the session (insert, ordered queries, limit,
first, count, in-place grade update, delete by object and delete by
query).  Date-time values are modelled as natural-number timestamps.
-/

namespace Sandbox

/-- Violation of one of the table constraints declared on `students`:
the unique constraint `unique_email` or the check constraint
`grade_between_1_and_12`. -/
inductive ConstraintViolation where
  | uniqueEmail (email : String)
  | gradeRange (grade : Int)
  deriving DecidableEq, Repr

/-- One row of the `students` table, after the mapping in
src/lib/sqlalchemy_sandbox.py: integer primary key `id`, `name`,
`email` (unique), `grade` (checked to lie in 1..12), optional
`birthday`, and `enrolled_date` which always holds a value because the
column has a default. -/
structure Student where
  id : Nat
  name : String
  email : String
  grade : Int
  birthday : Option Nat
  enrolled_date : Nat
  deriving DecidableEq, Repr

/-- The fields a caller supplies when constructing a `Student`, as in
the keyword arguments of the script: `birthday` and `enrolled_date`
may be left unspecified. -/
structure Fields where
  name : String
  email : String
  grade : Int
  birthday : Option Nat
  enrolled_date : Option Nat
  deriving DecidableEq, Repr

/-- The in-memory store behind the session: the module binds the
column default `datetime.now()` once when the `Student` class is
defined, so the store carries that single timestamp `creationTime`;
`nextId` is the next primary key to assign and `records` the rows in
insertion order (the default query order, by primary key). -/
structure RecordStore where
  creationTime : Nat
  nextId : Nat
  records : List Student
  deriving DecidableEq, Repr

/-- Insertion of one record, as the session performs it: the check
constraint on `grade` and the unique constraint on `email` are
enforced; on success the row receives the next id and, when
`enrolled_date` was not supplied, the default bound at class-definition
time, namely the store creation timestamp — not the insertion time
`now`, which the column default never consults. -/
def insert (now : Nat) (s : RecordStore) (f : Fields) :
    Except ConstraintViolation (Student × RecordStore) :=
  if 1 ≤ f.grade ∧ f.grade ≤ 12 then
    if s.records.any (fun x => x.email == f.email) then
      .error (.uniqueEmail f.email)
    else
      let r : Student :=
        { id := s.nextId, name := f.name, email := f.email, grade := f.grade,
          birthday := f.birthday, enrolled_date := f.enrolled_date.getD s.creationTime }
      .ok (r, { s with nextId := s.nextId + 1, records := s.records ++ [r] })
  else
    .error (.gradeRange f.grade)

/-- Modelled from the spec: `insert_many(list_of_fields)` is not a
function of the source script (the script only calls the library
helper `bulk_save_objects` on an all-valid batch), so its
partial-failure policy follows the spec: apply `insert` to each entry
in list order, and on the first violation abort the remaining batch,
keeping the earlier entries and reporting the index of the entry that
failed. -/
def insert_many (now : Nat) (s : RecordStore) :
    List Fields → RecordStore × Except (Nat × ConstraintViolation) (List Student)
  | [] => (s, .ok [])
  | f :: fs =>
    match insert now s f with
    | .error e => (s, .error (0, e))
    | .ok (r, s1) =>
      match insert_many now s1 fs with
      | (s2, .error (i, e)) => (s2, .error (i + 1, e))
      | (s2, .ok rs) => (s2, .ok (r :: rs))

/-- The ordering used by `order_by(Student.name)`: compare rows by the
`name` column. -/
def nameLe (a b : Student) : Prop := a.name ≤ b.name

instance : DecidableRel nameLe := fun a b => by
  unfold nameLe; infer_instance

instance : IsTotal Student nameLe := ⟨fun a b => le_total a.name b.name⟩

instance : IsTrans Student nameLe := ⟨fun _ _ _ h h2 => le_trans h h2⟩

/-- The ordering used by `order_by(desc(Student.grade))`: a row comes
first when its `grade` is at least the grade of the other. -/
def gradeGe (a b : Student) : Prop := b.grade ≤ a.grade

instance : DecidableRel gradeGe := fun a b => by
  unfold gradeGe; infer_instance

/-- `session.query(Student).order_by(Student.name)`: the rows sorted
by name; the sort is stable, so rows with equal names keep their
insertion order. -/
def orderByName (s : RecordStore) : List Student :=
  List.insertionSort nameLe s.records

/-- `session.query(Student).order_by(desc(Student.grade))`: the rows
sorted by descending grade, stably. -/
def orderByGradeDesc (s : RecordStore) : List Student :=
  List.insertionSort gradeGe s.records

/-- `... .order_by(desc(Student.grade)).limit(1)`: at most one row,
the top of the descending-grade ordering. -/
def orderByGradeDescLimit1 (s : RecordStore) : List Student :=
  (orderByGradeDesc s).take 1

/-- `query.first()` on a filter predicate: the first matching row in
the default (primary key) order, or `none` when no row matches — the
explicit absent marker. -/
def firstWhere (p : Student → Bool) (s : RecordStore) : Option Student :=
  s.records.find? p

/-- `session.query(func.count(Student.id))`: the number of (non-null)
`id` values among the rows. -/
def countStudents (s : RecordStore) : Nat :=
  (s.records.map Student.id).length

/-- `session.delete(record)` followed by commit: the row with the
record primary key is removed from the store. -/
def deleteRecord (s : RecordStore) (r : Student) : RecordStore :=
  { s with records := s.records.filter (fun x => x.id != r.id) }

/-- `query.delete()` on a filter predicate: every matching row is
removed; the call returns the number of rows deleted and never raises,
also when nothing matches. -/
def queryDelete (p : Student → Bool) (s : RecordStore) : Nat × RecordStore :=
  ((s.records.filter p).length, { s with records := s.records.filter (fun x => !(p x)) })

/-- The in-place update pass of the script: every row read by
`session.query(Student)` gets `grade += 1`, and the commit re-checks
the `grade BETWEEN 1 AND 12` constraint on each updated row; a
violating row makes the commit fail and leaves the store unchanged. -/
def incrementAllGrades (s : RecordStore) : Except ConstraintViolation RecordStore :=
  match (s.records.map (fun r => { r with grade := r.grade + 1 })).find?
      (fun r => !(decide (1 ≤ r.grade) && decide (r.grade ≤ 12))) with
  | some r => .error (.gradeRange r.grade)
  | none =>
    .ok { s with records := s.records.map (fun r => { r with grade := r.grade + 1 }) }

/-- One store operation, for reasoning about arbitrary operation
sequences: an insert attempt (which leaves the store unchanged when it
fails), a delete by record id, or a delete by query predicate. -/
inductive Op where
  | ins (now : Nat) (f : Fields)
  | del (r : Student)
  | qdel (p : Student → Bool)

/-- Apply one operation to the store. -/
def applyOp (s : RecordStore) : Op → RecordStore
  | .ins now f =>
    match insert now s f with
    | .ok (_, s1) => s1
    | .error _ => s
  | .del r => deleteRecord s r
  | .qdel p => (queryDelete p s).2

/-- Apply a finite sequence of operations in order. -/
def applyOps (s : RecordStore) (ops : List Op) : RecordStore :=
  ops.foldl applyOp s

/-- Inversion of a successful insertion: the grade check and the email
uniqueness check passed, and the returned row and store have the
stated shape. -/
theorem insert_ok_spec {now : Nat} {s : RecordStore} {f : Fields}
    {r : Student} {s1 : RecordStore}
    (h : insert now s f = .ok (r, s1)) :
    (1 ≤ f.grade ∧ f.grade ≤ 12) ∧
    s.records.any (fun x => x.email == f.email) = false ∧
    r = { id := s.nextId, name := f.name, email := f.email, grade := f.grade,
          birthday := f.birthday, enrolled_date := f.enrolled_date.getD s.creationTime } ∧
    s1 = { s with nextId := s.nextId + 1, records := s.records ++ [r] } := by
  unfold insert at h
  by_cases hg : 1 ≤ f.grade ∧ f.grade ≤ 12
  · rw [if_pos hg] at h
    by_cases he : s.records.any (fun x => x.email == f.email) = true
    · rw [if_pos he] at h
      exact absurd h (by simp)
    · rw [if_neg he] at h
      simp only [Except.ok.injEq, Prod.mk.injEq] at h
      obtain ⟨hr, hs⟩ := h
      refine ⟨hg, by simpa using he, hr.symm, ?_⟩
      rw [← hs, ← hr]
  · rw [if_neg hg] at h
    exact absurd h (by simp)

/-- Claim C1: a record inserted without an explicit enrolled_date
stores the store creation time, whatever the insertion time is; two
such records inserted at different times in the same store therefore
carry the same default value, the shared store creation time. -/
theorem enrolled_date_default_is_store_creation
    (t1 t2 : Nat) (s : RecordStore) (f1 f2 : Fields)
    (r1 : Student) (s1 : RecordStore) (r2 : Student) (s2 : RecordStore)
    (hd1 : f1.enrolled_date = none) (hd2 : f2.enrolled_date = none)
    (h1 : insert t1 s f1 = .ok (r1, s1)) (h2 : insert t2 s1 f2 = .ok (r2, s2)) :
    r1.enrolled_date = s.creationTime ∧ r2.enrolled_date = s.creationTime ∧
      r1.enrolled_date = r2.enrolled_date := by
  obtain ⟨-, -, hr1, hs1⟩ := insert_ok_spec h1
  obtain ⟨-, -, hr2, -⟩ := insert_ok_spec h2
  subst hr1 hs1 hr2
  simp [hd1, hd2]

/-- Witness for C1 at a concrete store and two concrete insertion
times 5 and 99: both records receive the store creation time 7. -/
theorem enrolled_date_default_is_store_creation_witness :
    (⟨1, "a", "a@x", 3, none, 7⟩ : Student).enrolled_date =
        (⟨7, 1, []⟩ : RecordStore).creationTime ∧
    (⟨2, "b", "b@x", 4, none, 7⟩ : Student).enrolled_date =
        (⟨7, 1, []⟩ : RecordStore).creationTime ∧
    (⟨1, "a", "a@x", 3, none, 7⟩ : Student).enrolled_date =
        (⟨2, "b", "b@x", 4, none, 7⟩ : Student).enrolled_date :=
  enrolled_date_default_is_store_creation 5 99 ⟨7, 1, []⟩
    ⟨"a", "a@x", 3, none, none⟩ ⟨"b", "b@x", 4, none, none⟩
    ⟨1, "a", "a@x", 3, none, 7⟩ ⟨7, 2, [⟨1, "a", "a@x", 3, none, 7⟩]⟩
    ⟨2, "b", "b@x", 4, none, 7⟩
    ⟨7, 3, [⟨1, "a", "a@x", 3, none, 7⟩, ⟨2, "b", "b@x", 4, none, 7⟩]⟩
    rfl rfl rfl rfl

/-- Claim C2: inserting with a grade outside 1..12 fails with a
constraint violation and adds no record, while the boundary grades 1
and 12 succeed when the email is not already taken. -/
theorem grade_constraint_boundaries (now : Nat) (s : RecordStore) (f : Fields) :
    ((f.grade < 1 ∨ 12 < f.grade) →
      ∃ e, insert now s f = .error e ∧ applyOp s (.ins now f) = s) ∧
    ((f.grade = 1 ∨ f.grade = 12) → (∀ x ∈ s.records, x.email ≠ f.email) →
      ∃ r s1, insert now s f = .ok (r, s1)) := by
  constructor
  · intro hout
    have hg : ¬ (1 ≤ f.grade ∧ f.grade ≤ 12) := by omega
    have he : insert now s f = .error (.gradeRange f.grade) := by
      unfold insert; rw [if_neg hg]
    refine ⟨.gradeRange f.grade, he, ?_⟩
    simp only [applyOp]
    rw [he]
  · intro hb hem
    have hg : 1 ≤ f.grade ∧ f.grade ≤ 12 := by omega
    have hany : ¬ (s.records.any (fun x => x.email == f.email) = true) := by
      simp only [List.any_eq_true, not_exists]
      intro x h
      exact hem x h.1 (by simpa using h.2)
    refine ⟨{ id := s.nextId, name := f.name, email := f.email, grade := f.grade,
              birthday := f.birthday,
              enrolled_date := f.enrolled_date.getD s.creationTime },
            { s with nextId := s.nextId + 1,
                     records := s.records ++
                       [{ id := s.nextId, name := f.name, email := f.email,
                          grade := f.grade, birthday := f.birthday,
                          enrolled_date := f.enrolled_date.getD s.creationTime }] }, ?_⟩
    unfold insert
    rw [if_pos hg, if_neg hany]

/-- Witness for C2: grade 13 is rejected and leaves the empty store
unchanged; grade 12 is accepted. -/
theorem grade_constraint_boundaries_witness :
    (∃ e, insert 0 ⟨0, 1, []⟩ ⟨"a", "a@x", 13, none, none⟩ = .error e ∧
        applyOp ⟨0, 1, []⟩ (.ins 0 ⟨"a", "a@x", 13, none, none⟩) = ⟨0, 1, []⟩) ∧
    (∃ r s1, insert 0 ⟨0, 1, []⟩ ⟨"a", "a@x", 12, none, none⟩ = .ok (r, s1)) :=
  ⟨(grade_constraint_boundaries 0 ⟨0, 1, []⟩ ⟨"a", "a@x", 13, none, none⟩).1
      (by decide),
   (grade_constraint_boundaries 0 ⟨0, 1, []⟩ ⟨"a", "a@x", 12, none, none⟩).2
      (by decide) (by decide)⟩

/-- Claim C3: inserting a second record with an email already stored
fails with a constraint violation, and the store still holds exactly
one record with that email. -/
theorem email_unique_second_insert_fails
    (t1 t2 : Nat) (s : RecordStore) (f1 f2 : Fields)
    (r1 : Student) (s1 : RecordStore)
    (hem : f2.email = f1.email)
    (h1 : insert t1 s f1 = .ok (r1, s1)) :
    (∃ e, insert t2 s1 f2 = .error e) ∧
      (s1.records.filter (fun x => x.email == f1.email)).length = 1 := by
  obtain ⟨hg, hany, hr1, hs1⟩ := insert_ok_spec h1
  have hr1email : r1.email = f1.email := by rw [hr1]
  have hmem : r1 ∈ s1.records := by rw [hs1]; simp
  constructor
  · cases h2 : insert t2 s1 f2 with
    | error e => exact ⟨e, rfl⟩
    | ok p =>
      obtain ⟨r2, s2⟩ := p
      obtain ⟨-, hany2, -, -⟩ := insert_ok_spec h2
      rw [List.any_eq_false] at hany2
      exact absurd (by simp [hr1email, hem]) (hany2 r1 hmem)
  · rw [hs1]
    simp only [List.filter_append]
    have hnil : s.records.filter (fun x => x.email == f1.email) = [] := by
      rw [List.filter_eq_nil_iff]
      rw [List.any_eq_false] at hany
      exact hany
    simp [hnil, hr1email]

/-- Witness for C3 at a concrete store: a second insert reusing the
email fails and the store keeps exactly one row with that email. -/
theorem email_unique_second_insert_fails_witness :
    (∃ e, insert 0 ⟨0, 2, [⟨1, "a", "dup@x", 3, none, 0⟩]⟩
        ⟨"b", "dup@x", 4, none, none⟩ = .error e) ∧
      ((⟨0, 2, [⟨1, "a", "dup@x", 3, none, 0⟩]⟩ : RecordStore).records.filter
        (fun x => x.email == "dup@x")).length = 1 :=
  email_unique_second_insert_fails 0 0 ⟨0, 1, []⟩
    ⟨"a", "dup@x", 3, none, none⟩ ⟨"b", "dup@x", 4, none, none⟩
    ⟨1, "a", "dup@x", 3, none, 0⟩ ⟨0, 2, [⟨1, "a", "dup@x", 3, none, 0⟩]⟩
    rfl rfl

/-- Claim C4: after deleting a record, no remaining row carries its
primary key, and a first-match query whose predicate matched only that
record returns the absent marker `none` (no stale object, no
exception: the operation is a total function). -/
theorem delete_then_first_absent
    (s : RecordStore) (r : Student) (p : Student → Bool)
    (hp : ∀ x ∈ s.records, p x = true → x.id = r.id) :
    (∀ x ∈ (deleteRecord s r).records, x.id ≠ r.id) ∧
      firstWhere p (deleteRecord s r) = none := by
  constructor
  · intro x hx
    simp only [deleteRecord, List.mem_filter] at hx
    simpa using hx.2
  · unfold firstWhere
    rw [List.find?_eq_none]
    intro x hx hpx
    simp only [deleteRecord, List.mem_filter] at hx
    exact absurd (hp x hx.1 hpx) (by simpa using hx.2)

/-- Witness for C4: deleting the only "Albert" row leaves no row with
its id, and the first-match query for that name returns `none`. -/
theorem delete_then_first_absent_witness :
    (∀ x ∈ (deleteRecord ⟨0, 2, [⟨1, "Albert", "a@x", 6, none, 0⟩]⟩
        ⟨1, "Albert", "a@x", 6, none, 0⟩).records, x.id ≠ (⟨1, "Albert", "a@x", 6, none, 0⟩ : Student).id) ∧
      firstWhere (fun x => x.name == "Albert")
        (deleteRecord ⟨0, 2, [⟨1, "Albert", "a@x", 6, none, 0⟩]⟩
          ⟨1, "Albert", "a@x", 6, none, 0⟩) = none :=
  delete_then_first_absent ⟨0, 2, [⟨1, "Albert", "a@x", 6, none, 0⟩]⟩
    ⟨1, "Albert", "a@x", 6, none, 0⟩ (fun x => x.name == "Albert")
    (by decide)

/-- Claim C10: a query-level delete whose predicate matches nothing
succeeds, deletes zero rows, leaves the store unchanged, and a
first-match query on the same predicate still returns `none`. -/
theorem query_delete_no_match_noop
    (s : RecordStore) (p : Student → Bool)
    (hp : ∀ x ∈ s.records, p x = false) :
    (queryDelete p s).2 = s ∧ (queryDelete p s).1 = 0 ∧
      firstWhere p (queryDelete p s).2 = none := by
  have hfil : s.records.filter (fun x => !(p x)) = s.records := by
    rw [List.filter_eq_self]
    intro a ha
    simp [hp a ha]
  have hnil : s.records.filter p = [] := by
    rw [List.filter_eq_nil_iff]
    intro a ha
    simp [hp a ha]
  refine ⟨?_, ?_, ?_⟩
  · unfold queryDelete
    simp only
    rw [hfil]
  · unfold queryDelete
    simp [hnil]
  · unfold queryDelete firstWhere
    simp only
    rw [List.find?_eq_none]
    intro x hx
    simp only [List.mem_filter] at hx
    simp [hp x hx.1]

/-- Witness for C10: deleting rows named "Nobody" from a store that
has none is a no-op and the first-match query returns `none`. -/
theorem query_delete_no_match_noop_witness :
    (queryDelete (fun x => x.name == "Nobody")
        ⟨0, 2, [⟨1, "Albert", "a@x", 6, none, 0⟩]⟩).2 =
      ⟨0, 2, [⟨1, "Albert", "a@x", 6, none, 0⟩]⟩ ∧
    (queryDelete (fun x => x.name == "Nobody")
        ⟨0, 2, [⟨1, "Albert", "a@x", 6, none, 0⟩]⟩).1 = 0 ∧
    firstWhere (fun x => x.name == "Nobody")
      (queryDelete (fun x => x.name == "Nobody")
        ⟨0, 2, [⟨1, "Albert", "a@x", 6, none, 0⟩]⟩).2 = none :=
  query_delete_no_match_noop ⟨0, 2, [⟨1, "Albert", "a@x", 6, none, 0⟩]⟩
    (fun x => x.name == "Nobody") (by decide)

/-- Claim C7: after any finite sequence of insert and delete
operations, the count query reports exactly the number of records
present in the store. -/
theorem count_matches_present (s0 : RecordStore) (ops : List Op) :
    countStudents (applyOps s0 ops) = (applyOps s0 ops).records.length := by
  unfold countStudents
  simp

/-- Claim C6: ordering by the name column yields the records sorted in
lexicographic name order, as a permutation of the stored records —
whatever order they were inserted in. -/
theorem order_by_name_sorted (s : RecordStore) :
    List.Sorted nameLe (orderByName s) ∧ (orderByName s).Perm s.records :=
  ⟨List.sorted_insertionSort nameLe s.records,
   List.perm_insertionSort nameLe s.records⟩

/-- The head of the stable descending-grade sort of a non-empty list
is a maximal-grade element, and among those the one occurring first in
the unsorted list. -/
theorem insertionSort_gradeGe_head :
    ∀ (l : List Student), l ≠ [] →
      ∃ r, (List.insertionSort gradeGe l).head? = some r ∧ r ∈ l ∧
        (∀ x ∈ l, x.grade ≤ r.grade) ∧
        l.find? (fun y => decide (r.grade ≤ y.grade)) = some r := by
  intro l
  induction l with
  | nil => intro h; exact absurd rfl h
  | cons a l ih =>
    intro h2
    cases l with
    | nil =>
      refine ⟨a, rfl, by simp, by simp, ?_⟩
      exact List.find?_cons_of_pos _ (by simp)
    | cons b m =>
      obtain ⟨r, hhd, hmem, hmax, hfind⟩ := ih (by simp)
      obtain ⟨t, ht⟩ : ∃ t, List.insertionSort gradeGe (b :: m) = r :: t := by
        cases hs : List.insertionSort gradeGe (b :: m) with
        | nil => rw [hs] at hhd; exact absurd hhd (by simp)
        | cons c t =>
          rw [hs] at hhd
          simp only [List.head?_cons, Option.some.injEq] at hhd
          exact ⟨t, by rw [hhd]⟩
      by_cases hle : r.grade ≤ a.grade
      · refine ⟨a, ?_, by simp, ?_, ?_⟩
        · show (List.orderedInsert gradeGe a
              (List.insertionSort gradeGe (b :: m))).head? = some a
          rw [ht, List.orderedInsert, if_pos (show gradeGe a r from hle)]
          rfl
        · intro x hx
          rcases List.mem_cons.mp hx with h | h
          · rw [h]
          · exact le_trans (hmax x h) hle
        · exact List.find?_cons_of_pos _ (by simp)
      · have hlt : a.grade < r.grade := lt_of_not_le hle
        refine ⟨r, ?_, List.mem_cons_of_mem a hmem, ?_, ?_⟩
        · show (List.orderedInsert gradeGe a
              (List.insertionSort gradeGe (b :: m))).head? = some r
          rw [ht, List.orderedInsert, if_neg (show ¬ gradeGe a r from hle)]
          rfl
        · intro x hx
          rcases List.mem_cons.mp hx with h | h
          · rw [h]; exact le_of_lt hlt
          · exact hmax x h
        · rw [List.find?_cons_of_neg]
          · exact hfind
          · simp only [decide_eq_true_eq]
            exact not_le.mpr hlt

/-- Claim C5: on a non-empty store, the descending-grade query limited
to one row returns exactly one record, of maximal grade, and in case
of ties the earliest-inserted such record (the first one in the
primary key order). -/
theorem order_by_grade_desc_limit1_max (s : RecordStore)
    (h : s.records ≠ []) :
    ∃ r, orderByGradeDescLimit1 s = [r] ∧ r ∈ s.records ∧
      (∀ x ∈ s.records, x.grade ≤ r.grade) ∧
      s.records.find? (fun y => decide (r.grade ≤ y.grade)) = some r := by
  obtain ⟨r, hhd, hmem, hmax, hfind⟩ := insertionSort_gradeGe_head s.records h
  refine ⟨r, ?_, hmem, hmax, hfind⟩
  unfold orderByGradeDescLimit1 orderByGradeDesc
  cases hs : List.insertionSort gradeGe s.records with
  | nil => rw [hs] at hhd; exact absurd hhd (by simp)
  | cons c t =>
    rw [hs] at hhd
    simp only [List.head?_cons, Option.some.injEq] at hhd
    rw [hhd]
    simp

/-- Witness for C5: in the two-record example store the query returns
the grade-11 record, which is maximal and first among maxima. -/
theorem order_by_grade_desc_limit1_max_witness :
    ∃ r, orderByGradeDescLimit1
        ⟨0, 3, [⟨1, "Albert", "a@x", 6, none, 0⟩, ⟨2, "Alan", "t@x", 11, none, 0⟩]⟩ = [r] ∧
      r ∈ (⟨0, 3, [⟨1, "Albert", "a@x", 6, none, 0⟩, ⟨2, "Alan", "t@x", 11, none, 0⟩]⟩ :
          RecordStore).records ∧
      (∀ x ∈ (⟨0, 3, [⟨1, "Albert", "a@x", 6, none, 0⟩, ⟨2, "Alan", "t@x", 11, none, 0⟩]⟩ :
          RecordStore).records, x.grade ≤ r.grade) ∧
      (⟨0, 3, [⟨1, "Albert", "a@x", 6, none, 0⟩, ⟨2, "Alan", "t@x", 11, none, 0⟩]⟩ :
          RecordStore).records.find? (fun y => decide (r.grade ≤ y.grade)) = some r :=
  order_by_grade_desc_limit1_max
    ⟨0, 3, [⟨1, "Albert", "a@x", 6, none, 0⟩, ⟨2, "Alan", "t@x", 11, none, 0⟩]⟩
    (by decide)

/-- Counterexample to C9 as stated: when a grade-12 record is present,
the increment pass trips the check constraint `grade BETWEEN 1 AND 12`
and fails, instead of incrementing every grade by one. -/
theorem increment_grades_fails_at_twelve :
    incrementAllGrades ⟨0, 2, [⟨1, "a", "a@x", 12, none, 0⟩]⟩ =
      .error (.gradeRange 13) := rfl

/-- Claim C9 (amended): provided every stored grade is at most 11 and
at least 0 — so every incremented grade still satisfies the check
constraint — the increment pass succeeds and maps each record to the
same record with grade one higher: ids, names, emails, birthdays and
enrolled dates are untouched and no record is added or removed. -/
theorem increment_grades_when_room (s : RecordStore)
    (h : ∀ r ∈ s.records, 0 ≤ r.grade ∧ r.grade ≤ 11) :
    incrementAllGrades s =
      .ok { s with records := s.records.map (fun r => { r with grade := r.grade + 1 }) } := by
  unfold incrementAllGrades
  have hnone : (s.records.map (fun r => { r with grade := r.grade + 1 })).find?
      (fun r => !(decide (1 ≤ r.grade) && decide (r.grade ≤ 12))) = none := by
    rw [List.find?_eq_none]
    intro x hx
    simp only [List.mem_map] at hx
    obtain ⟨y, hy, hxy⟩ := hx
    obtain ⟨h0, h11⟩ := h y hy
    rw [← hxy]
    simp
    omega
  rw [hnone]

/-- Witness for C9 (amended): a store with grades 6 and 11 is mapped
to the same store with grades 7 and 12, all other fields intact. -/
theorem increment_grades_when_room_witness :
    incrementAllGrades
        ⟨0, 3, [⟨1, "a", "a@x", 6, none, 0⟩, ⟨2, "b", "b@x", 11, none, 0⟩]⟩ =
      .ok ⟨0, 3, [⟨1, "a", "a@x", 7, none, 0⟩, ⟨2, "b", "b@x", 12, none, 0⟩]⟩ :=
  increment_grades_when_room
    ⟨0, 3, [⟨1, "a", "a@x", 6, none, 0⟩, ⟨2, "b", "b@x", 11, none, 0⟩]⟩
    (by decide)

/-- Claim C8: `insert_many` is fail-fast: when the batch fails with
index i, that index names an entry of the list, every entry before i
was inserted and remains inserted (the resulting store is exactly the
store reached after the successful prefix, so no later entry got in),
and entry i is the one that violates a constraint on that store. -/
theorem insert_many_fail_fast (now : Nat) (fs : List Fields) :
    ∀ (s : RecordStore) (i : Nat) (e : ConstraintViolation),
      (insert_many now s fs).2 = .error (i, e) →
      ∃ f, fs[i]? = some f ∧
        (∃ rs, (insert_many now s (fs.take i)).2 = .ok rs) ∧
        (insert_many now s fs).1 = (insert_many now s (fs.take i)).1 ∧
        insert now (insert_many now s (fs.take i)).1 f = .error e := by
  induction fs with
  | nil =>
    intro s i e h
    simp [insert_many] at h
  | cons g gs ih =>
    intro s i e h
    simp only [insert_many] at h
    cases hins : insert now s g with
    | error e0 =>
      rw [hins] at h
      simp only at h
      simp only [Except.error.injEq, Prod.mk.injEq] at h
      obtain ⟨hi, he⟩ := h
      subst hi
      subst he
      refine ⟨g, by simp, ⟨[], rfl⟩, ?_, ?_⟩
      · simp [insert_many, hins]
      · exact hins
    | ok p =>
      obtain ⟨r, s1⟩ := p
      rw [hins] at h
      simp only at h
      cases hrec : insert_many now s1 gs with
      | mk s2 res =>
        rw [hrec] at h
        cases res with
        | error ie =>
          obtain ⟨j, e2⟩ := ie
          simp only [Except.error.injEq, Prod.mk.injEq] at h
          obtain ⟨hi, he⟩ := h
          subst hi
          subst he
          obtain ⟨f, hf, ⟨rs, hok⟩, hsm, hfail⟩ :=
            ih s1 j e2 (by rw [hrec])
          cases hrec2 : insert_many now s1 (gs.take j) with
          | mk s3 res3 =>
            rw [hrec2] at hok
            simp only at hok
            subst hok
            have hpre : insert_many now s ((g :: gs).take (j + 1)) =
                (s3, .ok (r :: rs)) := by
              simp only [List.take_succ_cons, insert_many]
              rw [hins]
              simp only
              rw [hrec2]
            have hfull : insert_many now s (g :: gs) =
                (s2, .error (j + 1, e2)) := by
              simp only [insert_many]
              rw [hins]
              simp only
              rw [hrec]
            refine ⟨f, ?_, ⟨r :: rs, by rw [hpre]⟩, ?_, ?_⟩
            · rw [List.getElem?_cons_succ]
              exact hf
            · rw [hfull, hpre]
              rw [hrec, hrec2] at hsm
              exact hsm
            · rw [hpre]
              rw [hrec2] at hfail
              exact hfail
        | ok rs0 =>
          simp only at h
          exact absurd h (by simp)

/-- Witness for C8: a batch whose second entry has grade 13 fails at
index 1; the first entry stays inserted and the third never enters. -/
theorem insert_many_fail_fast_witness :
    ∃ f, ([⟨"a", "a@x", 3, none, none⟩, ⟨"b", "b@x", 13, none, none⟩,
           ⟨"c", "c@x", 5, none, none⟩] : List Fields)[1]? = some f ∧
      (∃ rs, (insert_many 0 ⟨0, 1, []⟩
          (([⟨"a", "a@x", 3, none, none⟩, ⟨"b", "b@x", 13, none, none⟩,
             ⟨"c", "c@x", 5, none, none⟩] : List Fields).take 1)).2 = .ok rs) ∧
      (insert_many 0 ⟨0, 1, []⟩
          [⟨"a", "a@x", 3, none, none⟩, ⟨"b", "b@x", 13, none, none⟩,
           ⟨"c", "c@x", 5, none, none⟩]).1 =
        (insert_many 0 ⟨0, 1, []⟩
          (([⟨"a", "a@x", 3, none, none⟩, ⟨"b", "b@x", 13, none, none⟩,
             ⟨"c", "c@x", 5, none, none⟩] : List Fields).take 1)).1 ∧
      insert 0 (insert_many 0 ⟨0, 1, []⟩
          (([⟨"a", "a@x", 3, none, none⟩, ⟨"b", "b@x", 13, none, none⟩,
             ⟨"c", "c@x", 5, none, none⟩] : List Fields).take 1)).1 f =
        .error (.gradeRange 13) :=
  insert_many_fail_fast 0
    [⟨"a", "a@x", 3, none, none⟩, ⟨"b", "b@x", 13, none, none⟩,
     ⟨"c", "c@x", 5, none, none⟩]
    ⟨0, 1, []⟩ 1 (.gradeRange 13) rfl

end Sandbox
